import Mathlib

/-
  Verification of the credential-client core of the xrpl-learn-credentials
  repository.  The TypeScript source is shallowly embedded: each service
  method becomes a pure Lean function of the data it inspects (the request
  fields, the transaction metadata returned by the ledger, the entry lists
  returned by read-only queries).  JavaScript strings that carry hex wire
  data are modelled as List Char; decoded byte strings as List Nat with
  values below 256; plain account addresses as String.  Optional JS
  parameters are modelled as Option, where none covers the values the code
  treats as absent (undefined and the falsy empty string/zero, since the
  source branches on truthiness).
-/

namespace XrplCredentials

/- ===== 1. Hex codec ======================================================
   The repository delegates these to the external xrpl library helpers
   convertStringToHex / convertHexToString; only their callers are in the
   repository, so the codec itself is modelled from the spec. -/

/-- Modelled from the spec: the hex digit (uppercase wire form) of a value
below 16, as produced by the text encoder that the repository imports from
the external ledger-client library. -/
def hexDigitOfNat (n : Nat) : Char :=
  if n < 10 then Char.ofNat (48 + n) else Char.ofNat (55 + n)

/-- Modelled from the spec: the value of one hex digit, accepting both
cases; none on a character that is not a hex digit (the MalformedEncoding
failure of the decoder). -/
def natOfHexDigit (c : Char) : Option Nat :=
  if 48 ≤ c.toNat ∧ c.toNat ≤ 57 then some (c.toNat - 48)
  else if 65 ≤ c.toNat ∧ c.toNat ≤ 70 then some (c.toNat - 55)
  else if 97 ≤ c.toNat ∧ c.toNat ≤ 102 then some (c.toNat - 87)
  else none

/-- Modelled from the spec: encodeText maps a byte string to its hex wire
encoding, two hex digits per byte (the convertStringToHex helper is not in
the repository source). -/
def encodeText : List Nat → List Char
  | [] => []
  | b :: bs => hexDigitOfNat (b / 16) :: hexDigitOfNat (b % 16) :: encodeText bs

/-- Modelled from the spec: decodeHex maps a hex wire string back to the
byte string it encodes; none models the MalformedEncoding failure on
non-hex input, including an odd-length tail (the convertHexToString helper
is not in the repository source). -/
def decodeHex : List Char → Option (List Nat)
  | [] => some []
  | [_] => none
  | c₁ :: c₂ :: cs =>
    match natOfHexDigit c₁, natOfHexDigit c₂, decodeHex cs with
    | some hi, some lo, some rest => some ((16 * hi + lo) :: rest)
    | _, _, _ => none

/- ===== 2. Timestamp codec ================================================
   Also delegated to the external library (isoTimeToRippleTime /
   rippleTimeToISOTime), hence modelled from the spec.  A calendar ISO
   timestamp is identified with its Unix-epoch second count. -/

/-- The fixed offset between the Unix epoch and the ledger epoch
(2000-01-01T00:00:00Z), in seconds. -/
def rippleEpochOffset : Int := 946684800

/-- Modelled from the spec: encodeTimestamp converts a calendar time (Unix
seconds) to the ledger epoch; none models the InvalidTimestamp failure on
dates before the ledger epoch's zero point (isoTimeToRippleTime is not in
the repository source). -/
def encodeTimestamp (t : Int) : Option Int :=
  if t < rippleEpochOffset then none else some (t - rippleEpochOffset)

/-- Modelled from the spec: decodeTimestamp converts a ledger-epoch second
count back to calendar time (rippleTimeToISOTime is not in the repository
source). -/
def decodeTimestamp (e : Int) : Int := e + rippleEpochOffset

/- ===== Claim theorems (codecs) ========================================= -/

/-- Lemma: decoding the digit produced by the encoder gives the value back. -/
theorem natOfHexDigit_hexDigitOfNat (n : Nat) (h : n < 16) :
    natOfHexDigit (hexDigitOfNat n) = some n := by
  interval_cases n <;> decide

/-- Lemma: a list containing a non-hex character never decodes. -/
theorem decodeHex_eq_none_of_bad :
    ∀ (l : List Char) (c : Char), c ∈ l → natOfHexDigit c = none →
      decodeHex l = none
  | [], c, hc, _ => absurd hc (List.not_mem_nil c)
  | [_], _, _, _ => rfl
  | c₁ :: c₂ :: cs, c, hc, hbad => by
    rcases List.mem_cons.mp hc with h | h
    · subst h
      cases h₂ : natOfHexDigit c₂ <;> cases h₃ : decodeHex cs <;>
        simp [decodeHex, hbad, h₂, h₃]
    rcases List.mem_cons.mp h with h | h
    · subst h
      cases h₁ : natOfHexDigit c₁ <;> cases h₃ : decodeHex cs <;>
        simp [decodeHex, hbad, h₁, h₃]
    · have ih := decodeHex_eq_none_of_bad cs c h hbad
      cases h₁ : natOfHexDigit c₁ <;> cases h₂ : natOfHexDigit c₂ <;>
        simp [decodeHex, h₁, h₂, ih]

/-- Claim C8: for every byte string b, decoding the hex produced by the
text encoder returns b unchanged, and any input containing a non-hex
character fails to decode (the decoder's MalformedEncoding failure,
modelled as none). -/
theorem c8_hex_roundtrip :
    (∀ b : List Nat, (∀ v ∈ b, v < 256) → decodeHex (encodeText b) = some b) ∧
    (∀ (l : List Char) (c : Char), c ∈ l → natOfHexDigit c = none →
      decodeHex l = none) := by
  constructor
  · intro b hb
    induction b with
    | nil => rfl
    | cons v bs ih =>
      have hv : v < 256 := hb v (List.mem_cons_self v bs)
      have hdiv : v / 16 < 16 := Nat.div_lt_of_lt_mul (by omega)
      have hmod : v % 16 < 16 := Nat.mod_lt _ (by omega)
      have hrest : decodeHex (encodeText bs) = some bs :=
        ih (fun x hx => hb x (List.mem_cons_of_mem v hx))
      simp [encodeText, decodeHex, natOfHexDigit_hexDigitOfNat _ hdiv,
        natOfHexDigit_hexDigitOfNat _ hmod, hrest, Nat.div_add_mod]
  · exact decodeHex_eq_none_of_bad

/-- Witness for C8 at a concrete byte string and a concrete non-hex input. -/
theorem c8_hex_roundtrip_witness :
    decodeHex (encodeText [202, 254]) = some [202, 254] ∧
    decodeHex ['G', '1'] = none :=
  ⟨c8_hex_roundtrip.1 [202, 254] (by decide),
   c8_hex_roundtrip.2 ['G', '1'] 'G' (by decide) (by decide)⟩

/-- Claim C9: for every calendar time at or after the ledger epoch's zero
point the timestamp codec round-trips, and encoding fails (the
InvalidTimestamp failure, modelled as none) for dates before the ledger
epoch's zero point. -/
theorem c9_timestamp_roundtrip :
    (∀ t : Int, rippleEpochOffset ≤ t →
      (encodeTimestamp t).map decodeTimestamp = some t) ∧
    (∀ t : Int, t < rippleEpochOffset → encodeTimestamp t = none) := by
  constructor
  · intro t ht
    simp [encodeTimestamp, not_lt.mpr ht, decodeTimestamp, Int.sub_add_cancel]
  · intro t ht
    simp [encodeTimestamp, ht]

/-- Witness for C9 at a concrete post-epoch time and a concrete pre-epoch
time. -/
theorem c9_timestamp_roundtrip_witness :
    (encodeTimestamp 946685800).map decodeTimestamp = some 946685800 ∧
    encodeTimestamp 0 = none :=
  ⟨c9_timestamp_roundtrip.1 946685800 (by norm_num [rippleEpochOffset]),
   c9_timestamp_roundtrip.2 0 (by norm_num [rippleEpochOffset])⟩

/- ===== 3. Transaction metadata (submitAndWait result shape) =============
   From src/services/credentialService.ts: the code narrows result.meta to
   TransactionMetadata and reads TransactionResult and AffectedNodes, where
   each affected node may carry a CreatedNode with optional LedgerEntryType
   and LedgerIndex fields. -/

structure CreatedNodeFields where
  ledgerEntryType : Option String
  ledgerIndex : Option String
deriving DecidableEq

structure AffectedNode where
  createdNode : Option CreatedNodeFields
deriving DecidableEq

structure TxMeta where
  transactionResult : String
  affectedNodes : Option (List AffectedNode)
deriving DecidableEq

/-- The find predicate of issueCredential: a node with a CreatedNode whose
LedgerEntryType is the string Credential. -/
def isCredentialCreatedNode (n : AffectedNode) : Bool :=
  match n.createdNode with
  | some cn => cn.ledgerEntryType == some "Credential"
  | none => false

/-- A node that both is a created Credential node and carries a
LedgerIndex; used to phrase the claim about metadata that lacks such an
entry. -/
def credentialCreatedWithIndex (n : AffectedNode) : Bool :=
  match n.createdNode with
  | some cn => cn.ledgerEntryType == some "Credential" && cn.ledgerIndex.isSome
  | none => false

/-- Outcome of CredentialService.issueCredential after submitAndWait: the
returned LedgerIndex, the thrown submission-failure error carrying the
result code (message Failed to issue credential with the code appended),
or the thrown unknown-result error when meta is not an object. -/
inductive IssueOutcome where
  | ok : String → IssueOutcome
  | failed : String → IssueOutcome
  | unknownResult : IssueOutcome
deriving DecidableEq

/-- Result handling of CredentialService.issueCredential
(src/services/credentialService.ts): on tesSUCCESS the AffectedNodes list
is scanned with find for the first created Credential node; its
LedgerIndex is returned when present; every other path, including a
reportedly successful result whose metadata lacks the created entry
shape, reaches the throw carrying the result code. -/
def issueCredential (meta : Option TxMeta) : IssueOutcome :=
  match meta with
  | none => IssueOutcome.unknownResult
  | some m =>
    if m.transactionResult == "tesSUCCESS" then
      match m.affectedNodes with
      | some nodes =>
        match nodes.find? isCredentialCreatedNode with
        | some n =>
          match n.createdNode with
          | some cn =>
            match cn.ledgerIndex with
            | some idx => IssueOutcome.ok idx
            | none => IssueOutcome.failed m.transactionResult
          | none => IssueOutcome.failed m.transactionResult
        | none => IssueOutcome.failed m.transactionResult
      | none => IssueOutcome.failed m.transactionResult
    else IssueOutcome.failed m.transactionResult

/- ===== 4. getCredentials (read-only list operation) ======================
   From src/services/credentialService.ts: an account_objects query of type
   credential, an optional truthy subject filter, and per-entry decoding of
   the hex fields, the flag bit and the first memo. -/

structure RawMemoFields where
  memoData : Option (List Char)
  memoType : Option (List Char)
  memoFormat : Option (List Char)
deriving DecidableEq

structure RawMemoWrap where
  memo : Option RawMemoFields
deriving DecidableEq

/-- A raw credential ledger entry as returned by the account_objects
query, with the hex wire fields still encoded.  An absent Memos array is
modelled as the empty list, matching the code's truthiness check. -/
structure RawCredentialEntry where
  subject : String
  credentialType : List Char
  flags : Nat
  expiration : Option Nat
  uri : Option (List Char)
  memos : List RawMemoWrap
deriving DecidableEq

structure MemoResponse where
  data : List Nat
  type : Option (List Nat)
  format : Option (List Nat)
deriving DecidableEq

/-- The decoded CredentialResponse value of the service
(src/types/xrpl-extensions.ts). -/
structure CredentialResponse where
  subject : String
  credential : List Nat
  accepted : Bool
  expiration : Option Int
  uri : Option (List Nat)
  memo : Option MemoResponse
deriving DecidableEq

/-- Decoding of an optional field that the code spreads only when truthy
(URI, MemoType, MemoFormat): absent or empty yields no field, a non-empty
value must decode, and a malformed value propagates the decode failure. -/
def decodeTruthyField : Option (List Char) → Option (Option (List Nat))
  | none => some none
  | some l =>
    if l = [] then some none
    else
      match decodeHex l with
      | some b => some (some b)
      | none => none

/-- Decoding of the first memo, as in getCredentials: MemoData defaults to
the empty string, MemoType and MemoFormat are spread only when truthy. -/
def decodeMemo (m : RawMemoFields) : Option MemoResponse :=
  match decodeHex (m.memoData.getD []), decodeTruthyField m.memoType,
      decodeTruthyField m.memoFormat with
  | some d, some t, some f => some ⟨d, t, f⟩
  | _, _, _ => none

/-- The memo part of an entry: getCredentials only looks at the first
element of Memos and only when it carries a Memo object. -/
def decodeEntryMemo (memos : List RawMemoWrap) : Option (Option MemoResponse) :=
  match memos.head? with
  | some w =>
    match w.memo with
    | some mf =>
      match decodeMemo mf with
      | some mr => some (some mr)
      | none => none
    | none => some none
  | none => some none

/-- Per-entry decoding of getCredentials: CredentialType is hex-decoded,
accepted is the 0x00010000 bit of Flags, a truthy Expiration is converted
from ledger time, a truthy URI is hex-decoded, and the first memo is
decoded.  none models the exception thrown on malformed hex. -/
def decodeEntry (e : RawCredentialEntry) : Option CredentialResponse :=
  match decodeHex e.credentialType, decodeTruthyField e.uri,
      decodeEntryMemo e.memos with
  | some ct, some uriv, some memov =>
    some
      ⟨e.subject, ct, e.flags &&& 0x00010000 != 0,
        (match e.expiration with
          | some n => if n = 0 then none else some (decodeTimestamp (Int.ofNat n))
          | none => none),
        uriv, memov⟩
  | _, _, _ => none

/-- Sequential decoding of the filtered entries; the JS map propagates the
first thrown decode error, modelled as none. -/
def decodeAll : List RawCredentialEntry → Option (List CredentialResponse)
  | [] => some []
  | e :: es =>
    match decodeEntry e, decodeAll es with
    | some r, some rs => some (r :: rs)
    | _, _ => none

/-- The truthy subject filter of getCredentials: entries are kept when
their raw Subject equals the given subject; no filtering without one. -/
def filterBySubject (objs : List RawCredentialEntry) :
    Option String → List RawCredentialEntry
  | some s => objs.filter (fun o => o.subject == s)
  | none => objs

/-- CredentialService.getCredentials as a function of the account_objects
query result: a missing or non-array account_objects field yields the
empty list; otherwise the entries are filtered by the optional subject and
decoded. -/
def getCredentials (accountObjects : Option (List RawCredentialEntry))
    (subject : Option String) : Option (List CredentialResponse) :=
  match accountObjects with
  | none => some []
  | some objs => decodeAll (filterBySubject objs subject)

/- ===== 5. revokeCredential (delete transaction building) =================
   From src/services/credentialService.ts: parameter validation, the
   auto-discovery path when neither subject nor issuer is truthy, and the
   addressed path otherwise.  The submission part shares the result
   handling shape of the other transactions. -/

/-- The CredentialDelete transaction as built by revokeCredential; the
Subject and Issuer fields are set only on the paths that assign them. -/
structure CredentialDeleteTx where
  account : String
  credentialType : List Char
  subject : Option String
  issuer : Option String
deriving DecidableEq

/-- The throw sites of revokeCredential before any submission: the missing
credential type validation, the empty fetch (message Credential to revoke
not found) and the no-type-match case (message Credential of type not
found). -/
inductive RevokeError where
  | typeMissing
  | credentialNotFoundEmpty
  | credentialNotFoundType
deriving DecidableEq

/-- Transaction-building portion of CredentialService.revokeCredential.
With neither subject nor issuer, the fetched credential list (the result
of this.getCredentials with no filter) is searched with find for the first
credential of the given type and its subject is used; with a truthy
subject that subject is used; otherwise a truthy issuer is used. -/
def revokeBuildTx (walletAddress : String) (credentialType : List Nat)
    (subject issuer : Option String) (fetched : List CredentialResponse) :
    Except RevokeError CredentialDeleteTx :=
  if credentialType = [] then Except.error RevokeError.typeMissing
  else
    match subject, issuer with
    | none, none =>
      if fetched.length > 0 then
        match fetched.find? (fun c => c.credential == credentialType) with
        | some matched =>
          Except.ok
            ⟨walletAddress, encodeText credentialType, some matched.subject, none⟩
        | none => Except.error RevokeError.credentialNotFoundType
      else Except.error RevokeError.credentialNotFoundEmpty
    | some s, _ =>
      Except.ok ⟨walletAddress, encodeText credentialType, some s, none⟩
    | none, some i =>
      Except.ok ⟨walletAddress, encodeText credentialType, none, some i⟩

/- ===== 6. Accept scenario =================================================
   From src/examples/accept-credential.ts: the CredentialAccept transaction
   (Account, Issuer, hex CredentialType; no Subject field) and the result
   reporting, which branches only on whether result.meta is an object. -/

structure CredentialAcceptTx where
  account : String
  issuer : String
  credentialType : List Char
deriving DecidableEq

/-- The CredentialAccept transaction built by runCredentialAcceptScenario:
the signer account, the issuer, and the hex-encoded credential type. -/
def buildAcceptTx (account issuer : String) (credentialType : List Nat) :
    CredentialAcceptTx :=
  ⟨account, issuer, encodeText credentialType⟩

/-- What the accept scenario reports after submitAndWait: success carries
the transaction hash and the printed TransactionResult code. -/
inductive AcceptReport where
  | success : String → String → AcceptReport
  | failure : AcceptReport
deriving DecidableEq

/-- Result reporting of runCredentialAcceptScenario: whenever result.meta
is an object the script prints acceptance successful together with the
hash and the result code; only a missing meta is reported as failure.  The
TransactionResult code is never compared against tesSUCCESS. -/
def acceptScenarioReport (meta : Option TxMeta) (txHash : String) :
    AcceptReport :=
  match meta with
  | some m => AcceptReport.success txHash m.transactionResult
  | none => AcceptReport.failure

/- ===== 7. checkAndEnableDepositAuth ======================================
   From src/utils/depositPreauthUtils.ts: reads account_info flags, checks
   the 0x01000000 bit, submits AccountSet SetFlag 9 only when unset.  The
   ledger's application of that settings transaction (setting the
   lsfDepositAuth bit) is the environment step recorded in flagsAfter. -/

def lsfDepositAuth : Nat := 0x01000000

/-- The observable result of checkAndEnableDepositAuth: the returned
boolean, or the throw (message Failed to enable DepositAuth) when the
submitted AccountSet does not come back tesSUCCESS. -/
inductive DepositAuthOutcome where
  | ret : Bool → DepositAuthOutcome
  | enableFailed : DepositAuthOutcome
deriving DecidableEq

/-- One run of checkAndEnableDepositAuth over an account whose flag word
is known: the outcome, whether a transaction was submitted, and the
account flags after the run. -/
structure DepositAuthRun where
  outcome : DepositAuthOutcome
  submitted : Bool
  flagsAfter : Nat
deriving DecidableEq

/-- checkAndEnableDepositAuth (src/utils/depositPreauthUtils.ts) as a
transition on the account flag word.  submitSucceeds tells whether the
submitted AccountSet comes back tesSUCCESS; on success the ledger sets the
lsfDepositAuth bit. -/
def checkAndEnableDepositAuth (flags : Nat) (submitSucceeds : Bool) :
    DepositAuthRun :=
  if flags &&& lsfDepositAuth != 0 then
    ⟨DepositAuthOutcome.ret false, false, flags⟩
  else if submitSucceeds then
    ⟨DepositAuthOutcome.ret true, true, flags ||| lsfDepositAuth⟩
  else ⟨DepositAuthOutcome.enableFailed, true, flags⟩

/- ===== 8. getCredentialTypePreauths ======================================
   From src/utils/depositPreauthUtils.ts: a read-only account_objects query
   of type deposit_preauth, keeping entries that carry an
   AuthorizeCredentials array and flattening their credentials verbatim. -/

structure PreauthCredential where
  issuer : String
  credentialType : List Char
deriving DecidableEq

/-- A raw deposit_preauth ledger entry; address-based entries carry no
AuthorizeCredentials field. -/
structure RawPreauthEntry where
  authorizeCredentials : Option (List PreauthCredential)
deriving DecidableEq

/-- An element of the list returned by getCredentialTypePreauths.  The
credentialType field is copied from the ledger entry as-is, so it is still
the hex wire string. -/
structure AuthEntryOut where
  issuer : String
  credentialType : List Char
deriving DecidableEq

/-- getCredentialTypePreauths (src/utils/depositPreauthUtils.ts) as a
function of the account_objects query result: entries with an
AuthorizeCredentials field are kept and their credential records are
flattened into issuer and credentialType pairs, both copied verbatim. -/
def getCredentialTypePreauths
    (accountObjects : Option (List RawPreauthEntry)) : List AuthEntryOut :=
  match accountObjects with
  | none => []
  | some l =>
    (l.filter (fun o => o.authorizeCredentials.isSome)).flatMap
      (fun o =>
        (o.authorizeCredentials.getD []).map
          (fun c => ⟨c.issuer, c.credentialType⟩))

/- ===== Claim theorems (client operations) =============================== -/

/-- Claim C1: issueCredential fails with the error carrying the ledger's
result code on any non-success code; on ledger success it scans the
affected-entries metadata for the created Credential entry and returns its
LedgerIndex; and when a reportedly successful result's metadata lacks a
created Credential entry with a LedgerIndex it fails rather than silently
succeeding, with an error carrying tesSUCCESS, distinguishable from every
rejection error (whose embedded code is never tesSUCCESS). -/
theorem c1_issueCredential_result_handling :
    (∀ m : TxMeta, m.transactionResult ≠ "tesSUCCESS" →
      issueCredential (some m) = IssueOutcome.failed m.transactionResult) ∧
    (∀ (m : TxMeta) (ns : List AffectedNode) (n : AffectedNode)
        (cn : CreatedNodeFields) (idx : String),
      m.transactionResult = "tesSUCCESS" →
      m.affectedNodes = some ns →
      ns.find? isCredentialCreatedNode = some n →
      n.createdNode = some cn →
      cn.ledgerIndex = some idx →
      issueCredential (some m) = IssueOutcome.ok idx) ∧
    (∀ m : TxMeta, m.transactionResult = "tesSUCCESS" →
      (∀ ns, m.affectedNodes = some ns →
        ∀ n ∈ ns, credentialCreatedWithIndex n = false) →
      issueCredential (some m) = IssueOutcome.failed "tesSUCCESS" ∧
      ∀ idx, issueCredential (some m) ≠ IssueOutcome.ok idx) ∧
    (∀ code : String, code ≠ "tesSUCCESS" →
      IssueOutcome.failed "tesSUCCESS" ≠ IssueOutcome.failed code) := by
  refine ⟨?_, ?_, ?_, ?_⟩
  · intro m h
    have hb : (m.transactionResult == "tesSUCCESS") = false :=
      beq_eq_false_iff_ne.mpr h
    simp [issueCredential, hb]
  · intro m ns n cn idx h1 h2 h3 h4 h5
    simp [issueCredential, h1, h2, h3, h4, h5]
  · intro m h1 h2
    have hfail : issueCredential (some m) = IssueOutcome.failed "tesSUCCESS" := by
      cases haff : m.affectedNodes with
      | none => simp [issueCredential, h1, haff]
      | some ns =>
        cases hf : ns.find? isCredentialCreatedNode with
        | none => simp [issueCredential, h1, haff, hf]
        | some n =>
          have hpred := List.find?_some hf
          have hbad := h2 ns haff n (List.mem_of_find?_eq_some hf)
          cases hcn : n.createdNode with
          | none => simp [isCredentialCreatedNode, hcn] at hpred
          | some cn =>
            have htype : (cn.ledgerEntryType == some "Credential") = true := by
              simpa [isCredentialCreatedNode, hcn] using hpred
            cases hidx : cn.ledgerIndex with
            | some idx =>
              exfalso
              simp [credentialCreatedWithIndex, hcn, hidx, htype] at hbad
            | none => simp [issueCredential, h1, haff, hf, hcn, hidx]
    exact ⟨hfail, fun idx h => by rw [hfail] at h; simp at h⟩
  · intro code h heq
    cases heq
    exact h rfl

/-- Witness for C1 at three concrete metadata values: a rejection code, a
success with a created Credential entry, and a success whose created entry
lacks a LedgerIndex. -/
theorem c1_issueCredential_result_handling_witness :
    issueCredential (some ⟨"tecDUPLICATE", none⟩) =
      IssueOutcome.failed "tecDUPLICATE" ∧
    issueCredential
        (some ⟨"tesSUCCESS", some [⟨some ⟨some "Credential", some "IDX42"⟩⟩]⟩) =
      IssueOutcome.ok "IDX42" ∧
    issueCredential
        (some ⟨"tesSUCCESS", some [⟨some ⟨some "Credential", none⟩⟩]⟩) =
      IssueOutcome.failed "tesSUCCESS" :=
  ⟨c1_issueCredential_result_handling.1 ⟨"tecDUPLICATE", none⟩ (by decide),
   c1_issueCredential_result_handling.2.1
     ⟨"tesSUCCESS", some [⟨some ⟨some "Credential", some "IDX42"⟩⟩]⟩
     [⟨some ⟨some "Credential", some "IDX42"⟩⟩]
     ⟨some ⟨some "Credential", some "IDX42"⟩⟩
     ⟨some "Credential", some "IDX42"⟩ "IDX42" rfl rfl (by decide) rfl rfl,
   (c1_issueCredential_result_handling.2.2.1
     ⟨"tesSUCCESS", some [⟨some ⟨some "Credential", none⟩⟩]⟩ rfl
     (by intro ns h; cases h; decide)).1⟩

/-- Claim C2 (amended): with neither subject nor issuer, revokeCredential
fails with the not-found error when the fetched list is empty and when no
fetched credential has the given type; when at least one matches, it uses
the subject of the first match in the delete transaction (it does not
check that the match is unique). -/
theorem c2_revoke_auto_discovery :
    (∀ (w : String) (ct : List Nat), ct ≠ [] →
      revokeBuildTx w ct none none [] =
        Except.error RevokeError.credentialNotFoundEmpty) ∧
    (∀ (w : String) (ct : List Nat) (fetched : List CredentialResponse),
      ct ≠ [] → fetched ≠ [] →
      (∀ c ∈ fetched, c.credential ≠ ct) →
      revokeBuildTx w ct none none fetched =
        Except.error RevokeError.credentialNotFoundType) ∧
    (∀ (w : String) (ct : List Nat) (fetched : List CredentialResponse)
        (c : CredentialResponse),
      ct ≠ [] →
      fetched.find? (fun x => x.credential == ct) = some c →
      revokeBuildTx w ct none none fetched =
        Except.ok ⟨w, encodeText ct, some c.subject, none⟩) := by
  refine ⟨?_, ?_, ?_⟩
  · intro w ct h
    simp [revokeBuildTx, h]
  · intro w ct fetched h hne hall
    have hfind : fetched.find? (fun x => x.credential == ct) = none :=
      List.find?_eq_none.mpr (fun x hx => by simp [hall x hx])
    have hlen : fetched.length > 0 := List.length_pos.mpr hne
    simp [revokeBuildTx, h, hfind, hlen]
  · intro w ct fetched c h hfind
    have hlen : fetched.length > 0 :=
      List.length_pos.mpr
        (List.ne_nil_of_mem (List.mem_of_find?_eq_some hfind))
    simp [revokeBuildTx, h, hfind, hlen]

/-- Witness for C2 (amended) at an empty fetch, a fetch with no matching
type, and a fetch whose first element matches. -/
theorem c2_revoke_auto_discovery_witness :
    revokeBuildTx "rIssuer" [84] none none [] =
      Except.error RevokeError.credentialNotFoundEmpty ∧
    revokeBuildTx "rIssuer" [84] none none
        [⟨"rCarol", [99], false, none, none, none⟩] =
      Except.error RevokeError.credentialNotFoundType ∧
    revokeBuildTx "rIssuer" [84] none none
        [⟨"rAlice", [84], false, none, none, none⟩] =
      Except.ok ⟨"rIssuer", encodeText [84], some "rAlice", none⟩ :=
  ⟨c2_revoke_auto_discovery.1 "rIssuer" [84] (by decide),
   c2_revoke_auto_discovery.2.1 "rIssuer" [84]
     [⟨"rCarol", [99], false, none, none, none⟩] (by decide) (by decide)
     (by decide),
   c2_revoke_auto_discovery.2.2 "rIssuer" [84]
     [⟨"rAlice", [84], false, none, none, none⟩]
     ⟨"rAlice", [84], false, none, none, none⟩ (by decide) rfl⟩

/-- Counterexample for C2 as stated: with two fetched credentials of the
requested type (a wrong match count), the auto-discovery path does not
fail with the not-found error; it builds the delete transaction from the
first match. -/
theorem c2_revoke_auto_discovery_counterexample :
    (List.filter (fun c => c.credential == [84])
        [(⟨"rAlice", [84], false, none, none, none⟩ : CredentialResponse),
         ⟨"rBob", [84], false, none, none, none⟩]).length = 2 ∧
    revokeBuildTx "rIssuer" [84] none none
        [⟨"rAlice", [84], false, none, none, none⟩,
         ⟨"rBob", [84], false, none, none, none⟩] =
      Except.ok ⟨"rIssuer", encodeText [84], some "rAlice", none⟩ :=
  ⟨rfl, rfl⟩

/-- Claim C3 (code bug evidence): the accept scenario builds the accept
transaction from the signer account, the issuer and the hex credential
type only, but its result handling reports success with the transaction
hash whenever result.meta is an object, even for the non-success result
code tecNO_ENTRY, instead of failing with an error carrying that code. -/
theorem c3_accept_reports_success_on_failure_code :
    buildAcceptTx "rAlice" "rIssuer" [65, 66] =
      ⟨"rAlice", "rIssuer", encodeText [65, 66]⟩ ∧
    ("tecNO_ENTRY" : String) ≠ "tesSUCCESS" ∧
    acceptScenarioReport (some ⟨"tecNO_ENTRY", none⟩) "HASH1" =
      AcceptReport.success "HASH1" "tecNO_ENTRY" :=
  ⟨rfl, by decide, rfl⟩

/-- Claim C10: with both a subject and an issuer supplied, the delete
transaction built by revokeCredential carries only the supplied subject as
its addressing field and omits the issuer. -/
theorem c10_revoke_subject_precedence :
    ∀ (w : String) (ct : List Nat) (s i : String)
      (fetched : List CredentialResponse), ct ≠ [] →
      revokeBuildTx w ct (some s) (some i) fetched =
        Except.ok ⟨w, encodeText ct, some s, none⟩ := by
  intro w ct s i fetched h
  simp [revokeBuildTx, h]

/-- Witness for C10 at concrete arguments with both subject and issuer. -/
theorem c10_revoke_subject_precedence_witness :
    revokeBuildTx "rIssuer" [84] (some "rAlice") (some "rOther") [] =
      Except.ok ⟨"rIssuer", encodeText [84], some "rAlice", none⟩ :=
  c10_revoke_subject_precedence "rIssuer" [84] "rAlice" "rOther" []
    (by decide)

/- ===== Well-formedness of raw entries (for C4) =========================== -/

/-- A truthy-spread hex field decodes: it is absent, empty, or valid hex. -/
def truthyFieldDecodes : Option (List Char) → Bool
  | none => true
  | some l => l == [] || (decodeHex l).isSome

/-- The first memo of an entry decodes. -/
def memoWellFormed (w : RawMemoWrap) : Bool :=
  match w.memo with
  | some mf =>
    (decodeHex (mf.memoData.getD [])).isSome &&
      truthyFieldDecodes mf.memoType && truthyFieldDecodes mf.memoFormat
  | none => true

/-- Every hex field of a raw credential entry decodes; this is the shape
of the entries the ledger actually serves. -/
def entryWellFormed (e : RawCredentialEntry) : Bool :=
  (decodeHex e.credentialType).isSome && truthyFieldDecodes e.uri &&
    (match e.memos.head? with
     | some w => memoWellFormed w
     | none => true)

/-- Lemma: a truthy-spread field that decodes yields a value. -/
theorem decodeTruthyField_isSome (o : Option (List Char))
    (h : truthyFieldDecodes o = true) : (decodeTruthyField o).isSome := by
  cases o with
  | none => simp [decodeTruthyField]
  | some l =>
    by_cases hl : l = []
    · simp [decodeTruthyField, hl]
    · simp only [truthyFieldDecodes, Bool.or_eq_true, beq_iff_eq] at h
      rcases h with h | h
      · exact absurd h hl
      · obtain ⟨b, hb⟩ := Option.isSome_iff_exists.mp h
        simp [decodeTruthyField, hl, hb]

/-- Lemma: the memo part of a well-formed entry decodes. -/
theorem decodeEntryMemo_isSome (memos : List RawMemoWrap)
    (h : ∀ w, memos.head? = some w → memoWellFormed w = true) :
    (decodeEntryMemo memos).isSome := by
  cases hm : memos.head? with
  | none => simp [decodeEntryMemo, hm]
  | some w =>
    have hw := h w hm
    cases hmm : w.memo with
    | none => simp [decodeEntryMemo, hm, hmm]
    | some mf =>
      simp only [memoWellFormed, hmm, Bool.and_eq_true] at hw
      obtain ⟨⟨hd, ht⟩, hf⟩ := hw
      obtain ⟨d, hd2⟩ := Option.isSome_iff_exists.mp hd
      obtain ⟨t, ht2⟩ :=
        Option.isSome_iff_exists.mp (decodeTruthyField_isSome _ ht)
      obtain ⟨f, hf2⟩ :=
        Option.isSome_iff_exists.mp (decodeTruthyField_isSome _ hf)
      simp [decodeEntryMemo, hm, hmm, decodeMemo, hd2, ht2, hf2]

/-- Lemma: a well-formed entry decodes to a credential value. -/
theorem decodeEntry_isSome_of_wellFormed (e : RawCredentialEntry)
    (h : entryWellFormed e = true) : (decodeEntry e).isSome := by
  simp only [entryWellFormed, Bool.and_eq_true] at h
  obtain ⟨⟨h1, h2⟩, h3⟩ := h
  obtain ⟨ct, hct⟩ := Option.isSome_iff_exists.mp h1
  obtain ⟨u, hu⟩ :=
    Option.isSome_iff_exists.mp (decodeTruthyField_isSome _ h2)
  have hmemo : (decodeEntryMemo e.memos).isSome := by
    apply decodeEntryMemo_isSome
    intro w hw
    rw [hw] at h3
    exact h3
  obtain ⟨mm, hmm⟩ := Option.isSome_iff_exists.mp hmemo
  simp [decodeEntry, hct, hu, hmm]

/-- Lemma: decoding preserves the raw entry's subject. -/
theorem decodeEntry_subject (e : RawCredentialEntry) (r : CredentialResponse)
    (h : decodeEntry e = some r) : r.subject = e.subject := by
  cases hct : decodeHex e.credentialType with
  | none => simp [decodeEntry, hct] at h
  | some ct =>
    cases hu : decodeTruthyField e.uri with
    | none => simp [decodeEntry, hct, hu] at h
    | some u =>
      cases hm : decodeEntryMemo e.memos with
      | none => simp [decodeEntry, hct, hu, hm] at h
      | some mm =>
        simp only [decodeEntry, hct, hu, hm, Option.some.injEq] at h
        rw [← h]

/-- Lemma: every list of decodable entries decodes as a whole. -/
theorem decodeAll_isSome (l : List RawCredentialEntry)
    (h : ∀ e ∈ l, (decodeEntry e).isSome) : (decodeAll l).isSome := by
  induction l with
  | nil => simp [decodeAll]
  | cons e es ih =>
    obtain ⟨r, hr⟩ :=
      Option.isSome_iff_exists.mp (h e (List.mem_cons_self e es))
    obtain ⟨rs, hrs⟩ :=
      Option.isSome_iff_exists.mp
        (ih (fun x hx => h x (List.mem_cons_of_mem e hx)))
    simp [decodeAll, hr, hrs]

/-- Lemma: every decoded credential comes from some raw entry of the
input. -/
theorem decodeAll_mem (l : List RawCredentialEntry)
    (rs : List CredentialResponse) (h : decodeAll l = some rs) :
    ∀ r ∈ rs, ∃ e ∈ l, decodeEntry e = some r := by
  induction l generalizing rs with
  | nil =>
    simp only [decodeAll, Option.some.injEq] at h
    subst h
    simp
  | cons e es ih =>
    cases hr : decodeEntry e with
    | none => simp [decodeAll, hr] at h
    | some r0 =>
      cases hrest : decodeAll es with
      | none => simp [decodeAll, hr, hrest] at h
      | some rs0 =>
        simp only [decodeAll, hr, hrest, Option.some.injEq] at h
        subst h
        intro r hrm
        rcases List.mem_cons.mp hrm with hcase | hcase
        · exact ⟨e, List.mem_cons_self e es,
            by rw [hcase]; exact hr⟩
        · obtain ⟨e2, he2, hd⟩ := ih rs0 hrest r hcase
          exact ⟨e2, List.mem_cons_of_mem e he2, hd⟩

/-- Claim C4: getCredentials returns the empty sequence rather than an
error when the query reports no credential entries; it returns a value
(never fails) on any response whose entries are well-formed; and with a
subject filter every returned credential's subject equals the filter. -/
theorem c4_getCredentials_spec :
    (∀ s, getCredentials none s = some []) ∧
    (∀ s, getCredentials (some []) s = some []) ∧
    (∀ objs s, (∀ e ∈ objs, entryWellFormed e = true) →
      (getCredentials (some objs) s).isSome) ∧
    (∀ objs s out, getCredentials (some objs) (some s) = some out →
      ∀ r ∈ out, r.subject = s) := by
  refine ⟨fun s => rfl, fun s => ?_, ?_, ?_⟩
  · cases s <;> rfl
  · intro objs s h
    apply decodeAll_isSome
    intro e he
    apply decodeEntry_isSome_of_wellFormed
    apply h
    cases s with
    | none => exact he
    | some s0 => exact List.mem_of_mem_filter he
  · intro objs s out h r hr
    obtain ⟨e, he, hd⟩ :=
      decodeAll_mem (filterBySubject objs (some s)) out h r hr
    simp only [filterBySubject, List.mem_filter, beq_iff_eq] at he
    rw [decodeEntry_subject e r hd]
    exact he.2

/-- Witness for C4 at a missing entry list and at a concrete one-entry
response with a matching subject filter. -/
theorem c4_getCredentials_spec_witness :
    getCredentials none (some "rX") = some [] ∧
    (getCredentials
        (some [⟨"rAlice", ['5', '8'], 65536, none, none, []⟩])
        (some "rAlice")).isSome ∧
    (∀ r ∈ [(⟨"rAlice", [88], true, none, none, none⟩ : CredentialResponse)],
      r.subject = "rAlice") :=
  ⟨c4_getCredentials_spec.1 (some "rX"),
   c4_getCredentials_spec.2.2.1
     [⟨"rAlice", ['5', '8'], 65536, none, none, []⟩] (some "rAlice")
     (by decide),
   c4_getCredentials_spec.2.2.2
     [⟨"rAlice", ['5', '8'], 65536, none, none, []⟩] "rAlice"
     [⟨"rAlice", [88], true, none, none, none⟩] (by decide)⟩

/-- Claim C5: the accepted boolean of a decoded credential entry is true
exactly when the reserved 0x00010000 bit of the raw entry's Flags field is
set, hence false for a credential the subject has not yet accepted. -/
theorem c5_accepted_flag_bit :
    ∀ (e : RawCredentialEntry) (r : CredentialResponse),
      decodeEntry e = some r →
      (r.accepted = true ↔ e.flags &&& 0x00010000 ≠ 0) := by
  intro e r h
  cases hct : decodeHex e.credentialType with
  | none => simp [decodeEntry, hct] at h
  | some ct =>
    cases hu : decodeTruthyField e.uri with
    | none => simp [decodeEntry, hct, hu] at h
    | some u =>
      cases hm : decodeEntryMemo e.memos with
      | none => simp [decodeEntry, hct, hu, hm] at h
      | some mm =>
        simp only [decodeEntry, hct, hu, hm, Option.some.injEq] at h
        rw [← h]
        simp [bne_iff_ne]

/-- Witness for C5 on a concrete entry whose accepted bit is set. -/
theorem c5_accepted_flag_bit_witness :
    ((⟨"rAlice", [88], true, none, none, none⟩ :
        CredentialResponse).accepted = true ↔
      (65536 : Nat) &&& 0x00010000 ≠ 0) :=
  c5_accepted_flag_bit ⟨"rAlice", ['5', '8'], 65536, none, none, []⟩
    ⟨"rAlice", [88], true, none, none, none⟩ rfl

/- ===== Claim theorems (deposit authorization) ============================ -/

/-- Lemma: a bit pattern just set by an or stays set under the mask. -/
theorem or_and_absorb (x m : Nat) : (x ||| m) &&& m = m := by
  apply Nat.eq_of_testBit_eq
  intro i
  simp only [Nat.testBit_and, Nat.testBit_or]
  cases m.testBit i <;> simp

/-- Claim C6: checkAndEnableDepositAuth submits a settings transaction
exactly when the 0x01000000 deposit-authorization bit is unset, returns
true exactly when it made a change, and is idempotent: after a successful
enabling run, a second run on the resulting account flags returns false
and submits no transaction. -/
theorem c6_depositAuth_idempotent :
    (∀ flags ok, (checkAndEnableDepositAuth flags ok).submitted =
      (flags &&& lsfDepositAuth == 0)) ∧
    (∀ flags ok, flags &&& lsfDepositAuth ≠ 0 →
      checkAndEnableDepositAuth flags ok =
        ⟨DepositAuthOutcome.ret false, false, flags⟩) ∧
    (∀ flags, flags &&& lsfDepositAuth = 0 →
      checkAndEnableDepositAuth flags true =
        ⟨DepositAuthOutcome.ret true, true, flags ||| lsfDepositAuth⟩) ∧
    (∀ flags,
      (checkAndEnableDepositAuth flags true).outcome =
        DepositAuthOutcome.ret true →
      checkAndEnableDepositAuth
          (checkAndEnableDepositAuth flags true).flagsAfter true =
        ⟨DepositAuthOutcome.ret false, false,
          (checkAndEnableDepositAuth flags true).flagsAfter⟩) := by
  have hset : ∀ flags : Nat, flags &&& lsfDepositAuth ≠ 0 →
      checkAndEnableDepositAuth flags true =
        ⟨DepositAuthOutcome.ret false, false, flags⟩ := by
    intro flags h
    simp [checkAndEnableDepositAuth, bne_iff_ne, h]
  refine ⟨?_, ?_, ?_, ?_⟩
  · intro flags ok
    by_cases h : flags &&& lsfDepositAuth = 0
    · cases ok <;> simp [checkAndEnableDepositAuth, h]
    · simp [checkAndEnableDepositAuth, bne_iff_ne, h]
  · intro flags ok h
    simp [checkAndEnableDepositAuth, bne_iff_ne, h]
  · intro flags h
    simp [checkAndEnableDepositAuth, h]
  · intro flags h
    by_cases hb : flags &&& lsfDepositAuth = 0
    · have hrun : checkAndEnableDepositAuth flags true =
          ⟨DepositAuthOutcome.ret true, true, flags ||| lsfDepositAuth⟩ := by
        simp [checkAndEnableDepositAuth, hb]
      rw [hrun]
      apply hset
      rw [or_and_absorb]
      simp [lsfDepositAuth]
    · rw [hset flags hb] at h
      simp at h

/-- Witness for C6: a run on a zero flag word enables the bit, and the
follow-up run on the resulting flags changes nothing. -/
theorem c6_depositAuth_idempotent_witness :
    checkAndEnableDepositAuth 0 true =
      ⟨DepositAuthOutcome.ret true, true, 0 ||| lsfDepositAuth⟩ ∧
    checkAndEnableDepositAuth
        (checkAndEnableDepositAuth 0 true).flagsAfter true =
      ⟨DepositAuthOutcome.ret false, false,
        (checkAndEnableDepositAuth 0 true).flagsAfter⟩ :=
  ⟨c6_depositAuth_idempotent.2.2.1 0 (by decide),
   c6_depositAuth_idempotent.2.2.2 0 (by decide)⟩

/-- Claim C7 (amended): getCredentialTypePreauths returns exactly the
issuer and credentialType pairs of the credential-based allow-list
entries, both copied verbatim from the ledger entries; in particular the
credentialType stays in its hex wire encoding and is not decoded. -/
theorem c7_preauth_list_verbatim :
    (getCredentialTypePreauths none = []) ∧
    (∀ objs e, e ∈ getCredentialTypePreauths (some objs) →
      ∃ o ∈ objs, ∃ c ∈ o.authorizeCredentials.getD [],
        e.issuer = c.issuer ∧ e.credentialType = c.credentialType) ∧
    (∀ objs o c, o ∈ objs → c ∈ o.authorizeCredentials.getD [] →
      (⟨c.issuer, c.credentialType⟩ : AuthEntryOut) ∈
        getCredentialTypePreauths (some objs)) := by
  refine ⟨rfl, ?_, ?_⟩
  · intro objs e he
    simp only [getCredentialTypePreauths, List.mem_flatMap, List.mem_filter,
      List.mem_map] at he
    obtain ⟨o, ⟨ho, _⟩, c, hc, heq⟩ := he
    exact ⟨o, ho, c, hc, by rw [← heq], by rw [← heq]⟩
  · intro objs o c ho hc
    simp only [getCredentialTypePreauths, List.mem_flatMap, List.mem_filter,
      List.mem_map]
    refine ⟨o, ⟨ho, ?_⟩, c, hc, rfl⟩
    cases ha : o.authorizeCredentials with
    | none => rw [ha] at hc; simp at hc
    | some l => simp [ha]

/-- Witness for C7 (amended) at a one-entry allow-list. -/
theorem c7_preauth_list_verbatim_witness :
    (⟨"rIssuer", ['4', '1', '4', '2']⟩ : AuthEntryOut) ∈
      getCredentialTypePreauths
        (some [⟨some [⟨"rIssuer", ['4', '1', '4', '2']⟩]⟩]) :=
  c7_preauth_list_verbatim.2.2
    [⟨some [⟨"rIssuer", ['4', '1', '4', '2']⟩]⟩]
    ⟨some [⟨"rIssuer", ['4', '1', '4', '2']⟩]⟩
    ⟨"rIssuer", ['4', '1', '4', '2']⟩ (by decide) (by decide)

/-- Counterexample for C7 as stated: with one allow-list entry whose
credential type is the hex encoding of the bytes 65 66 (the text AB), the
returned credentialType is still the four-hex-digit wire string, not the
decoded original byte/text form. -/
theorem c7_preauth_list_counterexample :
    (getCredentialTypePreauths
        (some [⟨some [⟨"rIssuer", ['4', '1', '4', '2']⟩]⟩])).map
        (fun e => e.credentialType) = [encodeText [65, 66]] ∧
    decodeHex ['4', '1', '4', '2'] = some [65, 66] ∧
    encodeText [65, 66] ≠ ['A', 'B'] :=
  ⟨rfl, rfl, by decide⟩

end XrplCredentials
